import Mathlib

/-!
Verification development for the LMDB editor (src/main.rs).

The file shallowly embeds the program's core: the binary-safe text codec
used by the entry edit buffer, the transaction session held in
`LmdbEditor.txn : Either<RoTxn, RwTxn>`, the click handlers of
`LmdbEditor::update` and `TreeBehavior::pane_ui`, the helper
`replace_right_with`, and the per-frame row-rendering loop.

Byte strings are `List Nat` with every element below 256.  The committed
content of a database is an association list sorted by key, read
transactions are modelled by the snapshot they see, and write
transactions by their working view of the database.
-/

abbrev Bytes := List Nat

/-- Printable ASCII bytes, kept verbatim by the codec. -/
def isPrintable (b : Nat) : Bool := 32 ≤ b && b ≤ 126

/-- UTF-8 continuation byte (0x80 to 0xBF). -/
def isCont (b : Nat) : Bool := 128 ≤ b && b ≤ 191

/-- Valid two-byte UTF-8 sequence head plus continuation. -/
def valid2 (b c1 : Nat) : Bool := (194 ≤ b && b ≤ 223) && isCont c1

/-- Valid three-byte UTF-8 sequence (surrogates and overlongs excluded). -/
def valid3 (b c1 c2 : Nat) : Bool :=
  (224 ≤ b && b ≤ 239) &&
    (if b = 224 then 160 ≤ c1 && c1 ≤ 191
     else if b = 237 then 128 ≤ c1 && c1 ≤ 159
     else isCont c1) && isCont c2

/-- Valid four-byte UTF-8 sequence (code points up to U+10FFFF). -/
def valid4 (b c1 c2 c3 : Nat) : Bool :=
  (240 ≤ b && b ≤ 244) &&
    (if b = 240 then 144 ≤ c1 && c1 ≤ 191
     else if b = 244 then 128 ≤ c1 && c1 ≤ 143
     else isCont c1) && isCont c2 && isCont c3

/-- Byte of the ASCII character for a hex digit (0-9, a-f). -/
def hexDigitChar (n : Nat) : Nat := if n < 10 then 48 + n else 87 + n

/-- Numeric value of an ASCII hex-digit byte, accepting both cases. -/
def hexVal (c : Nat) : Option Nat :=
  if 48 ≤ c && c ≤ 57 then some (c - 48)
  else if 97 ≤ c && c ≤ 102 then some (c - 87)
  else if 65 ≤ c && c ≤ 70 then some (c - 55)
  else none

/-- The four text bytes of a hex-byte escape (backslash, x, two digits). -/
def escByte (b : Nat) : List Nat := [92, 120, hexDigitChar (b / 16), hexDigitChar (b % 16)]

/-- Modelled from the spec: the codec's `encode(bytes) -> text` (the program
calls `stfu8::encode_u8_pretty`; neither the stfu8 crate nor the repository's
`escaped_entry` module is under src).  Printable ASCII and valid multi-byte
UTF-8 sequences are emitted verbatim, a literal backslash is escaped as a
doubled backslash, and every other byte becomes a backslash-prefixed hex-byte
escape.  The produced text is given by its bytes. -/
def encode : List Nat → List Nat
  | [] => []
  | b :: rest =>
    if b = 92 then 92 :: 92 :: encode rest
    else if isPrintable b then b :: encode rest
    else
      match rest with
      | c1 :: c2 :: c3 :: rest3 =>
        if valid2 b c1 then b :: c1 :: encode (c2 :: c3 :: rest3)
        else if valid3 b c1 c2 then b :: c1 :: c2 :: encode (c3 :: rest3)
        else if valid4 b c1 c2 c3 then b :: c1 :: c2 :: c3 :: encode rest3
        else escByte b ++ encode (c1 :: c2 :: c3 :: rest3)
      | [c1, c2] =>
        if valid2 b c1 then b :: c1 :: encode [c2]
        else if valid3 b c1 c2 then b :: c1 :: c2 :: encode []
        else escByte b ++ encode [c1, c2]
      | [c1] =>
        if valid2 b c1 then b :: c1 :: encode []
        else escByte b ++ encode [c1]
      | [] => escByte b ++ encode []

/-- The classes of decode failure the spec names: a truncated escape, an
escape with invalid hex digits, and an unknown escape character. -/
inductive DecodeError
  | truncatedEscape
  | invalidEscapeDigits
  | unknownEscape
  deriving DecidableEq

/-- Result of decoding, mirroring the Rust `Result<Vec<u8>, DecodeError>`. -/
inductive DecodeResult
  | ok (bytes : List Nat)
  | error (e : DecodeError)
  deriving DecidableEq

/-- Prepend a decoded byte to a decode result, propagating errors. -/
def consByte (b : Nat) : DecodeResult → DecodeResult
  | .ok r => .ok (b :: r)
  | .error e => .error e

/-- Modelled from the spec: the codec's `decode(text) -> Result<bytes>` (the
program calls it through the missing `escaped_entry` module).  A backslash
introduces an escape: a doubled backslash yields a literal backslash, and a
backslash-x followed by two hex digits yields that byte; a malformed or
truncated escape is a `DecodeError`.  Every other text byte passes verbatim. -/
def decode : List Nat → DecodeResult
  | [] => .ok []
  | b :: rest =>
    if b = 92 then
      match rest with
      | [] => .error .truncatedEscape
      | b2 :: rest2 =>
        if b2 = 92 then consByte 92 (decode rest2)
        else if b2 = 120 then
          match rest2 with
          | h1 :: h2 :: rest3 =>
            match hexVal h1, hexVal h2 with
            | some hi, some lo => consByte (16 * hi + lo) (decode rest3)
            | _, _ => .error .invalidEscapeDigits
          | _ => .error .truncatedEscape
        else .error .unknownEscape
    else consByte b (decode rest)

theorem hexVal_hexDigitChar : ∀ n, n < 16 → hexVal (hexDigitChar n) = some n := by decide

theorem decode_verbatim (b : Nat) (hb : ¬ b = 92) (t : List Nat) :
    decode (b :: t) = consByte b (decode t) := by
  rw [decode.eq_def]
  simp [hb]

theorem decode_backslash (t : List Nat) :
    decode (92 :: 92 :: t) = consByte 92 (decode t) := by
  rw [decode.eq_def]
  simp

theorem decode_escByte (b : Nat) (hb : b < 256) (t : List Nat) :
    decode (escByte b ++ t) = consByte b (decode t) := by
  have h1 : hexVal (hexDigitChar (b / 16)) = some (b / 16) :=
    hexVal_hexDigitChar _ (by omega)
  have h2 : hexVal (hexDigitChar (b % 16)) = some (b % 16) :=
    hexVal_hexDigitChar _ (by omega)
  rw [escByte, decode.eq_def]
  simp [h1, h2, Nat.div_add_mod]

theorem valid2_ne (b c1 : Nat) (h : valid2 b c1 = true) : ¬ b = 92 ∧ ¬ c1 = 92 := by
  simp [valid2, isCont] at h
  omega

theorem valid3_ne (b c1 c2 : Nat) (h : valid3 b c1 c2 = true) :
    ¬ b = 92 ∧ ¬ c1 = 92 ∧ ¬ c2 = 92 := by
  simp [valid3, isCont] at h
  split at h <;> [skip; split at h] <;> omega

theorem valid4_ne (b c1 c2 c3 : Nat) (h : valid4 b c1 c2 c3 = true) :
    ¬ b = 92 ∧ ¬ c1 = 92 ∧ ¬ c2 = 92 ∧ ¬ c3 = 92 := by
  simp [valid4, isCont] at h
  split at h <;> [skip; split at h] <;> omega

theorem decode_encode_nil : decode (encode []) = DecodeResult.ok [] := by
  rw [encode.eq_def, decode.eq_def]

theorem decode_encode (l : List Nat) :
    (∀ x ∈ l, x < 256) → decode (encode l) = DecodeResult.ok l := by
  induction l using encode.induct with
  | case1 => intro hb; rw [encode.eq_def, decode.eq_def]
  | case2 rest ih =>
    intro hb
    rw [show encode (92 :: rest) = 92 :: 92 :: encode rest from by rw [encode.eq_def]; simp]
    rw [decode_backslash, ih (fun x hx => hb x (List.mem_cons_of_mem _ hx))]
    rfl
  | case3 b rest h92 hpr ih =>
    intro hb
    rw [show encode (b :: rest) = b :: encode rest from by rw [encode.eq_def]; simp [h92, hpr]]
    rw [decode_verbatim b h92, ih (fun x hx => hb x (List.mem_cons_of_mem _ hx))]
    rfl
  | case4 b h92 hpr c1 c2 c3 rest3 hv ih =>
    intro hb
    obtain ⟨hb92, hc192⟩ := valid2_ne _ _ hv
    rw [show encode (b :: c1 :: c2 :: c3 :: rest3) = b :: c1 :: encode (c2 :: c3 :: rest3)
      from by rw [encode.eq_def]; simp [h92, hpr, hv]]
    rw [decode_verbatim b hb92, decode_verbatim c1 hc192]
    rw [ih (fun x hx => hb x (by simp at hx ⊢; tauto))]
    rfl
  | case5 b h92 hpr c1 c2 c3 rest3 hv2 hv ih =>
    intro hb
    obtain ⟨hb92, hc192, hc292⟩ := valid3_ne _ _ _ hv
    rw [show encode (b :: c1 :: c2 :: c3 :: rest3) = b :: c1 :: c2 :: encode (c3 :: rest3)
      from by rw [encode.eq_def]; simp [h92, hpr, hv2, hv]]
    rw [decode_verbatim b hb92, decode_verbatim c1 hc192, decode_verbatim c2 hc292]
    rw [ih (fun x hx => hb x (by simp at hx ⊢; tauto))]
    rfl
  | case6 b h92 hpr c1 c2 c3 rest3 hv2 hv3 hv ih =>
    intro hb
    obtain ⟨hb92, hc192, hc292, hc392⟩ := valid4_ne _ _ _ _ hv
    rw [show encode (b :: c1 :: c2 :: c3 :: rest3) = b :: c1 :: c2 :: c3 :: encode rest3
      from by rw [encode.eq_def]; simp [h92, hpr, hv2, hv3, hv]]
    rw [decode_verbatim b hb92, decode_verbatim c1 hc192, decode_verbatim c2 hc292,
      decode_verbatim c3 hc392]
    rw [ih (fun x hx => hb x (by simp at hx ⊢; tauto))]
    rfl
  | case7 b h92 hpr c1 c2 c3 rest3 hv2 hv3 hv4 ih =>
    intro hb
    rw [show encode (b :: c1 :: c2 :: c3 :: rest3)
        = escByte b ++ encode (c1 :: c2 :: c3 :: rest3)
      from by rw [encode.eq_def]; simp [h92, hpr, hv2, hv3, hv4]]
    rw [decode_escByte b (hb b (by simp))]
    rw [ih (fun x hx => hb x (by simp at hx ⊢; tauto))]
    rfl
  | case8 b h92 hpr c1 c2 hv ih =>
    intro hb
    obtain ⟨hb92, hc192⟩ := valid2_ne _ _ hv
    rw [show encode [b, c1, c2] = b :: c1 :: encode [c2] from by rw [encode.eq_def]; simp [h92, hpr, hv]]
    rw [decode_verbatim b hb92, decode_verbatim c1 hc192]
    rw [ih (fun x hx => hb x (by simp at hx ⊢; tauto))]
    rfl
  | case9 b h92 hpr c1 c2 hv2 hv ih =>
    intro hb
    obtain ⟨hb92, hc192, hc292⟩ := valid3_ne _ _ _ hv
    rw [show encode [b, c1, c2] = b :: c1 :: c2 :: encode []
      from by rw [encode.eq_def]; simp [h92, hpr, hv2, hv]]
    rw [decode_verbatim b hb92, decode_verbatim c1 hc192, decode_verbatim c2 hc292,
      decode_encode_nil]
    rfl
  | case10 b h92 hpr c1 c2 hv2 hv3 ih =>
    intro hb
    rw [show encode [b, c1, c2] = escByte b ++ encode [c1, c2]
      from by rw [encode.eq_def]; simp [h92, hpr, hv2, hv3]]
    rw [decode_escByte b (hb b (by simp))]
    rw [ih (fun x hx => hb x (by simp at hx ⊢; tauto))]
    rfl
  | case11 b h92 hpr c1 hv ih =>
    intro hb
    obtain ⟨hb92, hc192⟩ := valid2_ne _ _ hv
    rw [show encode [b, c1] = b :: c1 :: encode [] from by rw [encode.eq_def]; simp [h92, hpr, hv]]
    rw [decode_verbatim b hb92, decode_verbatim c1 hc192, decode_encode_nil]
    rfl
  | case12 b h92 hpr c1 hv2 ih =>
    intro hb
    rw [show encode [b, c1] = escByte b ++ encode [c1] from by rw [encode.eq_def]; simp [h92, hpr, hv2]]
    rw [decode_escByte b (hb b (by simp))]
    rw [ih (fun x hx => hb x (by simp at hx ⊢; tauto))]
    rfl
  | case13 b h92 hpr ih0 =>
    intro hb
    rw [show encode [b] = escByte b ++ encode [] from by rw [encode.eq_def]; simp [h92, hpr]]
    rw [decode_escByte b (hb b (by simp)), decode_encode_nil]
    rfl

/-- C1: for every byte string b (the empty string, any single byte 0x00-0xFF,
and mixtures of valid and invalid UTF-8 byte runs), decoding the text
produced by encoding b returns Ok(b). -/
theorem codec_roundtrip_c1 (b : List Nat) (h : ∀ x ∈ b, x < 256) :
    decode (encode b) = DecodeResult.ok b :=
  decode_encode b h

theorem codec_roundtrip_c1_witness :
    (∀ x ∈ [65, 0, 92, 200, 156, 255, 10], x < 256) ∧
      decode (encode [65, 0, 92, 200, 156, 255, 10]) =
        DecodeResult.ok [65, 0, 92, 200, 156, 255, 10] :=
  ⟨by decide, codec_roundtrip_c1 [65, 0, 92, 200, 156, 255, 10] (by decide)⟩

/-! ## The store and the transaction session

The committed content of one database is an association list from key bytes
to value bytes kept sorted in lexicographic byte order, the order in which
the store iterates entries.  A read transaction is the snapshot it captured
at creation; a write transaction is its current working view of the
database. -/

abbrev Store := List (Bytes × Bytes)

/-- Lexicographic order on byte strings, the store's native key order. -/
def bytesLt : List Nat → List Nat → Bool
  | [], [] => false
  | [], _ :: _ => true
  | _ :: _, [] => false
  | a :: as, b :: bs => if a < b then true else if b < a then false else bytesLt as bs

/-- Insert or overwrite a key in the sorted association list, as the store's
put does inside a write transaction. -/
def storePut : Store → Bytes → Bytes → Store
  | [], k, v => [(k, v)]
  | (k0, v0) :: rest, k, v =>
    if bytesLt k k0 then (k, v) :: (k0, v0) :: rest
    else if k = k0 then (k, v) :: rest
    else (k0, v0) :: storePut rest k v

/-- Remove a key if present; deleting an absent key changes nothing. -/
def storeDelete : Store → Bytes → Store
  | [], _ => []
  | (k0, v0) :: rest, k => if k = k0 then rest else (k0, v0) :: storeDelete rest k

/-- Look a key up in a transaction's view of the database. -/
def storeGet : Store → Bytes → Option Bytes
  | [], _ => none
  | (k0, v0) :: rest, k => if k = k0 then some v0 else storeGet rest k

/-- The entry edit buffer of a DatabaseEntries pane: one pending key text and
value text in codec form.  The repository's escaped_entry module is not under
src; its shape is taken from the destructuring in pane_ui and from the spec. -/
structure EscapedEntry where
  key : List Nat
  data : List Nat
  deriving DecidableEq

/-- Modelled from the spec: decoding the buffer's key text via the codec. -/
def EscapedEntry.decoded_key (e : EscapedEntry) : DecodeResult := decode e.key

/-- Modelled from the spec: decoding the buffer's value text via the codec. -/
def EscapedEntry.decoded_data (e : EscapedEntry) : DecodeResult := decode e.data

/-- Clearing the buffer after a successful mutation. -/
def EscapedEntry.clear (_ : EscapedEntry) : EscapedEntry := ⟨[], []⟩

/-- The editor state: the committed environment content and the one active
transaction, Left a read transaction (its snapshot) or Right a write
transaction (its working view), exactly as the field
txn: Either of RoTxn and RwTxn. -/
structure LmdbEditor where
  env : Store
  txn : Sum Store Store
  deriving DecidableEq

/-- The helper replace_right_with of main.rs: on Left it returns None and
leaves the value as it is; on Right it replaces the value with Left (f ())
and hands the former Right payload back.  The inner match whose Left arm is
the Rust unreachable bang is modelled by the outer Option, a none result
standing for that panic. -/
def replace_right_with {L R : Type} (either : Sum L R) (f : Unit → L) :
    Option (Sum L R × Option R) :=
  match either with
  | Sum.inl _ => some (either, none)
  | Sum.inr _ =>
    let obvious_right := either
    let replaced : Sum L R := Sum.inl (f ())
    match obvious_right with
    | Sum.inl _ => none
    | Sum.inr right => some (replaced, some right)

/-- The state LmdbEditor::new leaves behind: the main database exists and a
fresh read transaction is held, so the resting state is Reading. -/
def initEditor (st : Store) : LmdbEditor := { env := st, txn := Sum.inl st }

/-- Clicking the mode button (LmdbEditor::update): only when the session is
currently Left (reading) is a write transaction opened; its working view
starts from the committed state. -/
def beginWriteClick (s : LmdbEditor) : LmdbEditor :=
  if s.txn.isLeft then { s with txn := Sum.inr s.env } else s

/-- Clicking commit changes: replace_right_with first installs a fresh read
transaction, whose snapshot is taken from the committed state at that very
moment, and only afterwards is the extracted write transaction committed into
the environment. -/
def commitClick (s : LmdbEditor) : LmdbEditor :=
  match replace_right_with s.txn (fun _ => s.env) with
  | some (t2, some w) => { env := w, txn := t2 }
  | some (t2, none) => { s with txn := t2 }
  | none => s

/-- Clicking abort changes: the write transaction, if any, is swapped for a
fresh read transaction and its working view is dropped. -/
def abortClick (s : LmdbEditor) : LmdbEditor :=
  match replace_right_with s.txn (fun _ => s.env) with
  | some (t2, _) => { s with txn := t2 }
  | none => s

/-- The error taxonomy of the spec that a click handler could report. -/
inductive ErrKind
  | decodeError
  | invalidState
  deriving DecidableEq

/-- What one insert or delete click produces: a normally completed state (no
error reported), an error surfaced as status, or a process panic from an
unwrap.  The reported arm exists so the spec's propagation policy can be
stated; the source handlers never construct it. -/
inductive ClickOutcome
  | ok (s : LmdbEditor) (buf : EscapedEntry)
  | reported (e : ErrKind) (s : LmdbEditor) (buf : EscapedEntry)
  | panicked (s : LmdbEditor) (buf : EscapedEntry)
  deriving DecidableEq

/-- Whether an outcome surfaced an error as status to the caller. -/
def ClickOutcome.isReported : ClickOutcome → Bool
  | .reported _ _ _ => true
  | _ => false

/-- The insert button of pane_ui: only when the session holds a Right (write)
transaction does anything happen; then the key and value texts are decoded
with unwrap (a decode failure panics), the pair is put into the write
transaction's view, and the buffer is cleared. -/
def insertClick (s : LmdbEditor) (entry : EscapedEntry) : ClickOutcome :=
  match s.txn with
  | Sum.inr w =>
    match entry.decoded_key with
    | .error _ => .panicked s entry
    | .ok k =>
      match entry.decoded_data with
      | .error _ => .panicked s entry
      | .ok d => .ok { s with txn := Sum.inr (storePut w k d) } entry.clear
  | Sum.inl _ => .ok s entry

/-- The delete button of pane_ui: as insert but only the key is decoded and
the key is removed from the write transaction's view. -/
def deleteClick (s : LmdbEditor) (entry : EscapedEntry) : ClickOutcome :=
  match s.txn with
  | Sum.inr w =>
    match entry.decoded_key with
    | .error _ => .panicked s entry
    | .ok k => .ok { s with txn := Sum.inr (storeDelete w k) } entry.clear
  | Sum.inl _ => .ok s entry

/-- The three transaction-session operations named by the session invariant. -/
inductive TxnEvent
  | beginWrite
  | commit
  | abort
  deriving DecidableEq

def applyTxnEvent (s : LmdbEditor) : TxnEvent → LmdbEditor
  | .beginWrite => beginWriteClick s
  | .commit => commitClick s
  | .abort => abortClick s

def runTxnEvents (st : Store) (evs : List TxnEvent) : LmdbEditor :=
  evs.foldl applyTxnEvent (initEditor st)

theorem replace_right_with_left {L R : Type} (l : L) (f : Unit → L) :
    replace_right_with (Sum.inl l : Sum L R) f = some (Sum.inl l, none) := rfl

theorem replace_right_with_right {L R : Type} (r : R) (f : Unit → L) :
    replace_right_with (Sum.inr r : Sum L R) f = some (Sum.inl (f ()), some r) := rfl

/-- C10: replace_right_with returns None and leaves the value unchanged on
Left; on Right r it replaces the value with Left (f ()) and returns Some r;
and its internal unreachable branch is never taken (the modelled panic,
a none result, is impossible). -/
theorem replace_right_with_c10 {L R : Type} (e : Sum L R) (f : Unit → L) :
    (∀ l, e = Sum.inl l → replace_right_with e f = some (Sum.inl l, none)) ∧
    (∀ r, e = Sum.inr r → replace_right_with e f = some (Sum.inl (f ()), some r)) ∧
    replace_right_with e f ≠ none := by
  cases e <;> simp [replace_right_with]

theorem replace_right_with_c10_witness :
    replace_right_with (Sum.inr 7 : Sum Nat Nat) (fun _ => 3) = some (Sum.inl 3, some 7) :=
  (replace_right_with_c10 (Sum.inr 7) (fun _ => 3)).2.1 7 rfl

/-- C2 fails on the code: in commitClick, replace_right_with evaluates f,
opening the new read transaction, before wtxn.commit() runs, so the
post-commit read transaction's snapshot is the pre-commit state.  Starting
from an empty store, begin a write session, insert key 0x41 with value 0x42
through the edit buffer, and commit: the commit itself lands in the
environment, yet the session now holds a read transaction whose snapshot is
still the empty pre-commit store, so looking the key up through it yields
none instead of the committed value. -/
theorem commit_visibility_c2_bug :
    beginWriteClick (initEditor []) = { env := [], txn := Sum.inr [] } ∧
    insertClick { env := [], txn := Sum.inr [] } ⟨[65], [66]⟩ =
      ClickOutcome.ok { env := [], txn := Sum.inr [([65], [66])] } ⟨[], []⟩ ∧
    commitClick { env := [], txn := Sum.inr [([65], [66])] } =
      { env := [([65], [66])], txn := Sum.inl [] } ∧
    storeGet [] [65] = none ∧
    storeGet [([65], [66])] [65] = some [66] := by
  decide

/-- C3 fails as stated: with the session in Reading, an insert or delete
click is silently ignored (the if-let on Either::Right simply does not
match), so no InvalidStateError, nor any error, is ever reported. -/
theorem mutation_guard_c3_cex :
    insertClick (initEditor []) ⟨[65], [66]⟩ = ClickOutcome.ok (initEditor []) ⟨[65], [66]⟩ ∧
    (insertClick (initEditor []) ⟨[65], [66]⟩).isReported = false ∧
    deleteClick (initEditor []) ⟨[65], [66]⟩ = ClickOutcome.ok (initEditor []) ⟨[65], [66]⟩ ∧
    (deleteClick (initEditor []) ⟨[65], [66]⟩).isReported = false := by
  decide

/-- C3 amended: while the session is Reading, insert and delete perform no
mutation against the store and leave the session and buffer untouched, but
the rejection is silent: the request is ignored and no InvalidStateError,
nor any other status, is reported. -/
theorem mutation_guard_c3_amended (s : LmdbEditor) (r : Store) (e : EscapedEntry)
    (h : s.txn = Sum.inl r) :
    insertClick s e = ClickOutcome.ok s e ∧ deleteClick s e = ClickOutcome.ok s e := by
  constructor <;> simp [insertClick, deleteClick, h]

theorem mutation_guard_c3_witness :
    insertClick (initEditor []) ⟨[], []⟩ = ClickOutcome.ok (initEditor []) ⟨[], []⟩ ∧
    deleteClick (initEditor []) ⟨[], []⟩ = ClickOutcome.ok (initEditor []) ⟨[], []⟩ :=
  mutation_guard_c3_amended (initEditor []) [] ⟨[], []⟩ rfl

/-- C5 fails as stated: with a write session open and the staged key text
holding the truncated escape backslash-x, the insert handler unwraps the
DecodeError and panics; nothing is mutated, but the error is never surfaced
as status. -/
theorem decode_crash_c5_cex :
    insertClick { env := [], txn := Sum.inr [] } ⟨[92, 120], [66]⟩ =
      ClickOutcome.panicked { env := [], txn := Sum.inr [] } ⟨[92, 120], [66]⟩ ∧
    (insertClick { env := [], txn := Sum.inr [] } ⟨[92, 120], [66]⟩).isReported = false ∧
    deleteClick { env := [], txn := Sum.inr [] } ⟨[92, 120], [66]⟩ =
      ClickOutcome.panicked { env := [], txn := Sum.inr [] } ⟨[92, 120], [66]⟩ := by
  decide

/-- C5 amended: for every staged entry whose key text (or, for insert, value
text) fails to decode, insert and delete clicks in the Writing state perform
no mutation and leave the buffer intact, but they terminate in a process
panic via unwrap rather than surfacing the DecodeError as status. -/
theorem decode_crash_c5_amended :
    (∀ (s : LmdbEditor) (w : Store) (e : EscapedEntry) (er : DecodeError),
      s.txn = Sum.inr w → decode e.key = DecodeResult.error er →
        insertClick s e = ClickOutcome.panicked s e ∧
        deleteClick s e = ClickOutcome.panicked s e) ∧
    (∀ (s : LmdbEditor) (w : Store) (e : EscapedEntry) (k : List Nat) (er : DecodeError),
      s.txn = Sum.inr w → decode e.key = DecodeResult.ok k →
        decode e.data = DecodeResult.error er →
        insertClick s e = ClickOutcome.panicked s e) := by
  constructor
  · intro s w e er hw hk
    constructor <;>
      simp [insertClick, deleteClick, hw, EscapedEntry.decoded_key, hk]
  · intro s w e k er hw hk hd
    simp [insertClick, hw, EscapedEntry.decoded_key, EscapedEntry.decoded_data, hk, hd]

theorem decode_crash_c5_witness :
    insertClick { env := [], txn := Sum.inr [] } ⟨[92, 120], []⟩ =
      ClickOutcome.panicked { env := [], txn := Sum.inr [] } ⟨[92, 120], []⟩ ∧
    insertClick { env := [], txn := Sum.inr [] } ⟨[65], [92, 122]⟩ =
      ClickOutcome.panicked { env := [], txn := Sum.inr [] } ⟨[65], [92, 122]⟩ :=
  ⟨(decode_crash_c5_amended.1 { env := [], txn := Sum.inr [] } [] ⟨[92, 120], []⟩
      DecodeError.truncatedEscape rfl (by decide)).1,
    decode_crash_c5_amended.2 { env := [], txn := Sum.inr [] } [] ⟨[65], [92, 122]⟩ [65]
      DecodeError.unknownEscape rfl (by decide) (by decide)⟩

/-- C6: after any sequence of begin_write, commit and abort operations the
session holds exactly one transaction, tagged Reading (Left) or Writing
(Right), never both and never neither; the resting state right after
initialisation is Reading with a live read transaction. -/
theorem session_invariant_c6 (st : Store) (evs : List TxnEvent) :
    ((runTxnEvents st evs).txn.isLeft = true ∨ (runTxnEvents st evs).txn.isRight = true) ∧
    ¬((runTxnEvents st evs).txn.isLeft = true ∧ (runTxnEvents st evs).txn.isRight = true) ∧
    (initEditor st).txn.isLeft = true := by
  refine ⟨?_, ?_, rfl⟩ <;> cases h : (runTxnEvents st evs).txn <;> simp [h]

/-- C8: a begin-write request while the session is already Writing is a
no-op: the click is ignored, the held write transaction is kept, and no
second write transaction is opened or queued. -/
theorem begin_write_noop_c8 (s : LmdbEditor) (w : Store) (h : s.txn = Sum.inr w) :
    beginWriteClick s = s := by
  simp [beginWriteClick, h]

theorem begin_write_noop_c8_witness :
    beginWriteClick { env := [], txn := Sum.inr [([0], [1])] } =
      { env := [], txn := Sum.inr [([0], [1])] } :=
  begin_write_noop_c8 { env := [], txn := Sum.inr [([0], [1])] } [([0], [1])] rfl

/-! ## The row-rendering loop of pane_ui

Each call of pane_ui builds a fresh iterator over the database and a fresh
prev_row_index, then the table body invokes the row closure once per visible
row index.  The closure asserts strictly sequential indices within the pass,
skips start_row entries when prev_row_index is still None, and yields the
iterator's next entry if any.  A request of the window [start, start+cnt)
is one such pass.  The second component counts how many entries the pass
consumed from the front of the fresh iterator before yielding its first row,
and a none result is the assertion panic. -/

def renderLoop (iter : List (Bytes × Bytes)) (prev : Option Nat) (idxs : List Nat) :
    Option (List (Bytes × Bytes) × Nat) :=
  match idxs with
  | [] => some ([], 0)
  | i :: rest =>
    if prev.elim true (fun p => p + 1 == i) then
      let skip := if prev.isNone then i else 0
      match iter.drop skip with
      | [] => (renderLoop (iter.drop skip) (some i) rest).map (fun r => (r.1, skip + r.2))
      | e :: it2 => (renderLoop it2 (some i) rest).map (fun r => (e :: r.1, skip + r.2))
    else none

/-- One render pass requesting the rows [start, start + cnt). -/
def renderRequest (entries : List (Bytes × Bytes)) (start cnt : Nat) :
    Option (List (Bytes × Bytes) × Nat) :=
  renderLoop entries none (List.range' start cnt)

theorem renderLoop_seq (m : Nat) :
    ∀ (iter : List (Bytes × Bytes)) (i : Nat),
      renderLoop iter (some i) (List.range' (i + 1) m) = some (iter.take m, 0) := by
  induction m with
  | zero => intro iter i; simp [renderLoop]
  | succ n ih =>
    intro iter i
    rw [List.range'_succ]
    cases iter with
    | nil => simp [renderLoop, ih]
    | cons e it2 => simp [renderLoop, ih]

theorem renderRequest_eq (entries : List (Bytes × Bytes)) (start cnt : Nat) :
    renderRequest entries start cnt =
      some ((entries.drop start).take cnt, if cnt = 0 then 0 else start) := by
  cases cnt with
  | zero => simp [renderRequest, renderLoop]
  | succ n =>
    rw [renderRequest, List.range'_succ]
    cases h : entries.drop start with
    | nil => simp [renderLoop, renderLoop_seq, h]
    | cons e it2 => simp [renderLoop, renderLoop_seq, h]

/-- C4: a cursor request whose start_row is not the sequential continuation
of the previous request still returns the correct rows, and it does so by
working on a discarded, freshly built iteration handle that re-seeks from the
beginning, skipping start_row entries (the pass's skip count is start_row). -/
theorem cursor_reseek_c4 (entries : List (Bytes × Bytes)) (s1 c1 s2 c2 : Nat)
    (hjump : ¬ s2 = s1 + c1) :
    renderRequest entries s2 c2 =
      some ((entries.drop s2).take c2, if c2 = 0 then 0 else s2) :=
  renderRequest_eq entries s2 c2

def ents55 : List (Bytes × Bytes) := (List.range 55).map (fun i => ([i], [i]))

theorem cursor_reseek_c4_witness :
    ¬ (50 = 5 + 5) ∧
    renderRequest ents55 50 5 =
      some ([([50], [50]), ([51], [51]), ([52], [52]), ([53], [53]), ([54], [54])], 50) :=
  ⟨by decide, (cursor_reseek_c4 ents55 5 5 50 5 (by decide)).trans (by decide)⟩

def ents30 : List (Bytes × Bytes) := (List.range 30).map (fun i => ([i], [i]))

/-- C7 fails in its no-re-seek part: on a 30-row collection the strictly
sequential requests [10,10) and [20,10) each consume 10 respectively 20
entries from the front of a freshly built iterator before yielding their
first row, because pane_ui rebuilds the iterator on every call; a retained
handle would have consumed 0. -/
theorem sequential_cursor_c7_cex :
    (renderRequest ents30 10 10).map (fun r => r.2) = some 10 ∧
    (renderRequest ents30 20 10).map (fun r => r.2) = some 20 ∧
    ¬ (renderRequest ents30 10 10).map (fun r => r.2) = some 0 := by
  decide

/-- C7 amended: requesting [0,10) then [10,10) then [20,10) yields exactly
the same 30 (key, value) pairs in the same order as requesting [0,30) in one
call, but the sequential path re-seeks on every call: each request skips
start_row entries from the beginning of a fresh iteration handle instead of
resuming the previous one. -/
theorem sequential_cursor_c7_amended (entries : List (Bytes × Bytes))
    (hlen : 30 ≤ entries.length) :
    renderRequest entries 0 10 = some (entries.take 10, 0) ∧
    renderRequest entries 10 10 = some ((entries.drop 10).take 10, 10) ∧
    renderRequest entries 20 10 = some ((entries.drop 20).take 10, 20) ∧
    renderRequest entries 0 30 =
      some (entries.take 10 ++ ((entries.drop 10).take 10 ++ (entries.drop 20).take 10), 0) := by
  refine ⟨?_, ?_, ?_, ?_⟩
  · simpa using renderRequest_eq entries 0 10
  · simpa using renderRequest_eq entries 10 10
  · simpa using renderRequest_eq entries 20 10
  · have h30 : entries.take 30
        = entries.take 10 ++ ((entries.drop 10).take 10 ++ (entries.drop 20).take 10) := by
      rw [show (30 : Nat) = 10 + 20 from rfl, List.take_add,
        show (20 : Nat) = 10 + 10 from rfl, List.take_add, List.drop_drop]
    have h := renderRequest_eq entries 0 30
    simpa [h30] using h

theorem sequential_cursor_c7_witness :
    30 ≤ ents30.length ∧
    (renderRequest ents30 0 10 = some (ents30.take 10, 0) ∧
     renderRequest ents30 10 10 = some ((ents30.drop 10).take 10, 10) ∧
     renderRequest ents30 20 10 = some ((ents30.drop 20).take 10, 20) ∧
     renderRequest ents30 0 30 =
       some (ents30.take 10 ++ ((ents30.drop 10).take 10 ++ (ents30.drop 20).take 10), 0)) :=
  ⟨by decide, sequential_cursor_c7_amended ents30 (by decide)⟩

/-! ## The database registry and the OpenNew pane -/

/-- A cheap copyable collection handle. -/
structure DbHandle where
  id : Nat
  deriving DecidableEq

/-- The named collections of an environment plus the distinguished
unnamed main collection, which always exists. -/
structure EnvDbs where
  main : DbHandle
  named : List (List Nat × DbHandle)
  deriving DecidableEq

/-- Modelled from the spec: the store collaborator's open, where a None name
denotes the distinguished main collection and a Some name looks the named
collection up, None when absent (heed's Env::open_database is external to
the repository). -/
def open_database (env : EnvDbs) (name : Option (List Nat)) : Option DbHandle :=
  match name with
  | none => some env.main
  | some n => env.named.lookup n

/-- The open click of the OpenNew pane: an empty database-name text is
mapped to None, a non-empty one to Some of the text. -/
def openClickName (database_to_open : List Nat) : Option (List Nat) :=
  if database_to_open.isEmpty then none else some database_to_open

/-- The open click end to end: the name mapping composed with the
registry's open. -/
def openClick (env : EnvDbs) (database_to_open : List Nat) : Option DbHandle :=
  open_database env (openClickName database_to_open)

/-- C9: an empty database-name text opens the distinguished unnamed main
collection, never a collection literally named by the empty string, and a
non-empty text opens the collection of exactly that name. -/
theorem open_main_c9 :
    (∀ env : EnvDbs, openClick env [] = some env.main) ∧
    (∀ (env : EnvDbs) (t : List Nat), ¬ t = [] →
      openClick env t = open_database env (some t)) := by
  constructor
  · intro env; rfl
  · intro env t ht
    cases t with
    | nil => exact absurd rfl ht
    | cons a l => rfl

theorem open_main_c9_witness :
    openClick ⟨⟨0⟩, [([117, 115, 101, 114, 115], ⟨1⟩)]⟩ [117, 115, 101, 114, 115] =
      open_database ⟨⟨0⟩, [([117, 115, 101, 114, 115], ⟨1⟩)]⟩
        (some [117, 115, 101, 114, 115]) ∧
    openClick ⟨⟨0⟩, [([117, 115, 101, 114, 115], ⟨1⟩)]⟩ [] = some (⟨0⟩ : DbHandle) :=
  ⟨open_main_c9.2 ⟨⟨0⟩, [([117, 115, 101, 114, 115], ⟨1⟩)]⟩ [117, 115, 101, 114, 115]
      (by decide),
    open_main_c9.1 ⟨⟨0⟩, [([117, 115, 101, 114, 115], ⟨1⟩)]⟩⟩
